import Mathlib

/-!
Shallow embedding of `quinn/src/runtime.rs`: the runtime-agnostic async I/O
abstraction layer (Runtime / AsyncTimer / AsyncUdpSocket / UdpPoller traits,
the generic `UdpPollHelper` poller adapter, and `default_runtime` selection).

Stateful Rust code is modelled by explicit state passing; `std::task::Poll`
becomes the `Poll` inductive; futures become deterministic step machines
(a behavior function of how many times the future has been polled so far);
`io::Result` becomes `Except`.
-/

namespace Quinn

/-- Model of `std::task::Poll<α>`: the result of polling an asynchronous
operation once. -/
inductive Poll (α : Type) where
  | ready (a : α)
  | pending
  deriving DecidableEq, Repr

/-- Model of `std::io::ErrorKind`, abstracted to the one kind this layer
distinguishes (`WouldBlock`) plus an arbitrary hard-error code. -/
inductive IoErrorKind where
  | wouldBlock
  | other (code : Nat)
  deriving DecidableEq, Repr

/-- Model of `io::Result<()>`, the output type of the readiness future in
`UdpPollHelper` and of `UdpPoller::poll_writable`. -/
abbrev IoResultUnit := Except IoErrorKind Unit

/-- Model of a value of type `T: Future<Output = io::Result<()>>`: a
deterministic step machine.  `behavior n` is what the future's `poll` returns
the `n`-th time it is polled (counting from its creation), and `polls` is how
many times it has been polled so far.  Polling advances `polls`. -/
structure Fut where
  behavior : Nat → Poll IoResultUnit
  polls : Nat

/-- The observation made by polling the future once (`fut.poll(cx)`). -/
def Fut.current (t : Fut) : Poll IoResultUnit :=
  t.behavior t.polls

/-- The future's state after being polled once. -/
def Fut.advance (t : Fut) : Fut :=
  { t with polls := t.polls + 1 }

/-- Model of the `UdpPollHelper<F, T>` struct (runtime.rs lines 83-89).

The Rust struct stores the factory closure `f: F` and the retained slot
`fut: Option<T>`.  The closure interacts with an external socket, so each
invocation may yield a future with different behavior; we model this by
indexing the factory by its invocation count.  `invocations` is a ghost
counter recording how many times the factory has been invoked: it does not
influence which future the helper polls in the deterministic-closure case
(a Rust `Fn()` closure would be a constant family), it only lets theorems
count factory invocations. -/
structure UdpPollHelper where
  f : Nat → Fut
  fut : Option Fut
  invocations : Nat

/-- `UdpPollHelper::new` (runtime.rs lines 92-94): starts with an empty
retained slot and, in the ghost model, zero factory invocations. -/
def UdpPollHelper.new (f : Nat → Fut) : UdpPollHelper :=
  { f := f, fut := none, invocations := 0 }

/-- The slot-filling prefix of `poll_writable` (runtime.rs lines 104-106):
`if this.fut.is_none() { this.fut.set(Some((this.f)())); }`. -/
def UdpPollHelper.fill (s : UdpPollHelper) : UdpPollHelper :=
  if s.fut.isNone then
    { s with fut := some (s.f s.invocations), invocations := s.invocations + 1 }
  else
    s

/-- `UdpPollHelper::poll_writable` (runtime.rs lines 102-112).  After the
slot-filling step, the retained future is read with `.unwrap()` — modelled by
returning `none` if the slot were empty at that point — and polled; if the
result is ready the slot is cleared, otherwise the advanced future stays in
the slot. -/
def UdpPollHelper.poll_writable (s : UdpPollHelper) :
    Option (Poll IoResultUnit × UdpPollHelper) :=
  match (s.fill).fut with
  | none => none
  | some t =>
      match t.current with
      | .ready r => some (.ready r, { s.fill with fut := none })
      | .pending => some (.pending, { s.fill with fut := some t.advance })

/-- Total wrapper around `poll_writable`, usable once we know the `.unwrap()`
never fails (the `none` branch is proved unreachable below). -/
def UdpPollHelper.step (s : UdpPollHelper) : Poll IoResultUnit × UdpPollHelper :=
  match s.poll_writable with
  | some p => p
  | none => (.pending, s)

/-- `n` successive `poll_writable` calls on the helper, collecting the
results in order. -/
def UdpPollHelper.run (s : UdpPollHelper) : Nat → List (Poll IoResultUnit) × UdpPollHelper
  | 0 => ([], s)
  | n + 1 => ((s.step).1 :: ((s.step).2.run n).1, ((s.step).2.run n).2)

/-! ### Runtime selection (`default_runtime`, runtime.rs lines 126-141) -/

/-- The concrete runtime handles that `default_runtime` can return. -/
inductive RuntimeChoice where
  | tokioRuntime
  | asyncStdRuntime
  deriving DecidableEq, Repr

/-- `default_runtime` (runtime.rs lines 126-141), as a function of the two
compile-time feature flags and of the ambient context probe.
`tokioFeature` is `cfg(feature = "runtime-tokio")`, `asyncStdFeature` is
`cfg(feature = "runtime-async-std")`, and `tokioCtxOk` is the runtime value
of `tokio::runtime::Handle::try_current().is_ok()`.  The tokio `cfg` block
returns `TokioRuntime` when its handle probe succeeds; the async-std `cfg`
block returns `AsyncStdRuntime` unconditionally; the trailing expression,
compiled only without the async-std feature, is `None`. -/
def default_runtime (tokioFeature asyncStdFeature tokioCtxOk : Bool) :
    Option RuntimeChoice :=
  if tokioFeature && tokioCtxOk then some .tokioRuntime
  else if asyncStdFeature then some .asyncStdRuntime
  else none

/-- Modelled from the spec: one entry of the backend probe list used by
runtime selection — a backend identity, whether it was compiled in, and
whether its ambient-context check passes at the probing instant. -/
structure BackendProbe where
  choice : RuntimeChoice
  compiledIn : Bool
  ambientCheck : Bool
  deriving DecidableEq, Repr

/-- Modelled from the spec: "probe available backends in a fixed priority
order, select the first whose ambient-context check passes, ... if none
qualify, report absence". -/
def selectBackend : List BackendProbe → Option RuntimeChoice
  | [] => none
  | b :: bs => if b.compiledIn && b.ambientCheck then some b.choice else selectBackend bs

/-- The fixed priority list realized by the code: tokio first, guarded by the
`Handle::try_current` ambient check, then async-std, whose ambient-context
check in the code is vacuous (it always passes — the async-std block returns
unconditionally). -/
def priorityList (tokioFeature asyncStdFeature tokioCtxOk : Bool) : List BackendProbe :=
  [⟨.tokioRuntime, tokioFeature, tokioCtxOk⟩,
   ⟨.asyncStdRuntime, asyncStdFeature, true⟩]

/-! ### `AsyncUdpSocket` capability-negotiation defaults (runtime.rs lines 33-72) -/

/-- An implementation of the `AsyncUdpSocket` trait, restricted to the three
capability-negotiation methods, which have default bodies.  A `none` field
means the implementor did not override that method. -/
structure AsyncUdpSocketImpl where
  max_transmit_segments_impl : Option Nat
  max_receive_segments_impl : Option Nat
  may_fragment_impl : Option Bool
  deriving DecidableEq, Repr

/-- `AsyncUdpSocket::max_transmit_segments` (runtime.rs lines 56-58):
the override when present, else the default body `1`. -/
def AsyncUdpSocketImpl.max_transmit_segments (s : AsyncUdpSocketImpl) : Nat :=
  s.max_transmit_segments_impl.getD 1

/-- `AsyncUdpSocket::max_receive_segments` (runtime.rs lines 61-63):
the override when present, else the default body `1`. -/
def AsyncUdpSocketImpl.max_receive_segments (s : AsyncUdpSocketImpl) : Nat :=
  s.max_receive_segments_impl.getD 1

/-- `AsyncUdpSocket::may_fragment` (runtime.rs lines 69-71):
the override when present, else the default body `true`. -/
def AsyncUdpSocketImpl.may_fragment (s : AsyncUdpSocketImpl) : Bool :=
  s.may_fragment_impl.getD true

/-! ### `Runtime` factory signatures (runtime.rs lines 15-22) -/

/-- The three operations of the `Runtime` trait. -/
inductive RuntimeOp where
  | new_timer
  | spawn
  | wrap_udp_socket
  deriving DecidableEq, Repr

/-- The shape of an operation's result type. -/
inductive ResultShape where
  | timerValue
  | unitValue
  | ioResultValue
  deriving DecidableEq, Repr

/-- The result-type shape of each `Runtime` operation, transcribed from the
trait signatures: `new_timer` returns `Pin<Box<dyn AsyncTimer>>` (a timer
value, no error alternative), `spawn` returns `()`, and `wrap_udp_socket`
returns `io::Result<Arc<dyn AsyncUdpSocket>>`. -/
def runtimeOpResultShape : RuntimeOp → ResultShape
  | .new_timer => .timerValue
  | .spawn => .unitValue
  | .wrap_udp_socket => .ioResultValue

/-- Whether a result-type shape carries an I/O error alternative. -/
def ResultShape.fallible : ResultShape → Bool
  | .ioResultValue => true
  | .timerValue => false
  | .unitValue => false

/-! ### Spec-modelled backend behavior -/

/-- Modelled from the spec: no conforming implementation of
`AsyncUdpSocket::try_send` is in the sources (only the trait declaration,
runtime.rs lines 37-42, and contracts in the spec), so we model the backend
the spec's testable property quantifies over — one that "accepts datagrams
one at a time".  `accepts` is how many datagrams the OS socket will
currently accept without blocking; the call sends the given datagrams in
order while accepted and returns the count actually sent, or `WouldBlock`
when it can make no progress at all. -/
def try_send {α : Type} (accepts : Nat) (transmits : List α) : Except IoErrorKind Nat :=
  if transmits.isEmpty then .ok 0
  else if accepts = 0 then .error .wouldBlock
  else .ok (min accepts transmits.length)

/-- Modelled from the spec: no `AsyncTimer` implementation is in the sources
(only the trait declaration, runtime.rs lines 25-30), so the timer state
machine of spec section 4.2 is modelled: `Idle(deadline)` goes on poll to
`Pending` (registered, not yet due) or `Fired` (due); `Fired` does not fire
again without a reset.  Instants are naturals. -/
inductive TimerState where
  | idle (deadline : Nat)
  | registered (deadline : Nat)
  | fired (deadline : Nat)
  deriving DecidableEq, Repr

/-- Modelled from the spec: `AsyncTimer::reset` "transitions any state back
to `Idle(new_deadline)`, invalidating any prior pending registration". -/
def AsyncTimer.reset (_st : TimerState) (i : Nat) : TimerState :=
  .idle i

/-- Modelled from the spec: `AsyncTimer::poll` at the current instant `now`
returns "fired" when the deadline is due (at most once per deadline unless
reset) and otherwise registers and returns "not ready". -/
def AsyncTimer.poll (st : TimerState) (now : Nat) : Poll Unit × TimerState :=
  match st with
  | .idle d => if d ≤ now then (.ready (), .fired d) else (.pending, .registered d)
  | .registered d => if d ≤ now then (.ready (), .fired d) else (.pending, .registered d)
  | .fired d => (.pending, .fired d)

/-! ### Concrete instances used by witnesses -/

/-- A readiness future that is never ready. -/
def pendingFut : Fut :=
  { behavior := fun _ => .pending, polls := 0 }

/-- A helper whose factory always yields a never-ready future. -/
def pendingHelper : UdpPollHelper :=
  .new fun _ => pendingFut

/-- A readiness future that is immediately ready with success. -/
def readyFut : Fut :=
  { behavior := fun _ => .ready (.ok ()), polls := 0 }

/-- A helper whose factory always yields an immediately-ready future. -/
def readyHelper : UdpPollHelper :=
  .new fun _ => readyFut

/-- The state of `readyHelper` after its first `poll_writable` call: the
slot has been cleared again and the factory has run once. -/
def readyHelperAfter : UdpPollHelper :=
  { f := fun _ => readyFut, fut := none, invocations := 1 }

/-! ## Helper lemmas -/

theorem fill_of_none {s : UdpPollHelper} (h : s.fut = none) :
    s.fill = { s with fut := some (s.f s.invocations), invocations := s.invocations + 1 } := by
  simp [UdpPollHelper.fill, h]

theorem fill_of_some {s : UdpPollHelper} {t : Fut} (h : s.fut = some t) :
    s.fill = s := by
  simp [UdpPollHelper.fill, h]

theorem fill_fut_isSome (s : UdpPollHelper) : s.fill.fut.isSome := by
  unfold UdpPollHelper.fill
  cases h : s.fut <;> simp [h]

theorem poll_writable_ready {s : UdpPollHelper} {t : Fut} {r : IoResultUnit}
    (h : s.fill.fut = some t) (hc : t.current = .ready r) :
    s.poll_writable = some (.ready r, { s.fill with fut := none }) := by
  simp [UdpPollHelper.poll_writable, h, hc]

theorem poll_writable_pending {s : UdpPollHelper} {t : Fut}
    (h : s.fill.fut = some t) (hc : t.current = .pending) :
    s.poll_writable = some (.pending, { s.fill with fut := some t.advance }) := by
  simp [UdpPollHelper.poll_writable, h, hc]

theorem step_of_poll_writable {s : UdpPollHelper} {p : Poll IoResultUnit × UdpPollHelper}
    (h : s.poll_writable = some p) : s.step = p := by
  simp [UdpPollHelper.step, h]

theorem step_ready {s : UdpPollHelper} {t : Fut} {r : IoResultUnit}
    (h : s.fill.fut = some t) (hc : t.current = .ready r) :
    s.step = (.ready r, { s.fill with fut := none }) :=
  step_of_poll_writable (poll_writable_ready h hc)

theorem step_pending {s : UdpPollHelper} {t : Fut}
    (h : s.fill.fut = some t) (hc : t.current = .pending) :
    s.step = (.pending, { s.fill with fut := some t.advance }) :=
  step_of_poll_writable (poll_writable_pending h hc)

/-- On a state whose slot is already occupied, a call that observes "not
ready" neither invokes the factory nor empties the slot; iterating such calls
leaves the invocation count unchanged. -/
theorem run_all_pending_of_isSome :
    ∀ (n : Nat) (s : UdpPollHelper), s.fut.isSome →
      (∀ r ∈ (s.run n).1, r = Poll.pending) →
      (s.run n).2.invocations = s.invocations ∧ ((s.run n).2).fut.isSome := by
  intro n
  induction n with
  | zero =>
      intro s hs _
      exact ⟨rfl, hs⟩
  | succ n ih =>
      intro s hs hall
      obtain ⟨t, ht⟩ := Option.isSome_iff_exists.mp hs
      have hfill : s.fill = s := fill_of_some ht
      have hfut : s.fill.fut = some t := by rw [hfill, ht]
      cases hc : t.current with
      | ready r =>
          have hstep := step_ready hfut hc
          have hmem : Poll.ready r ∈ (s.run (n + 1)).1 := by
            simp [UdpPollHelper.run, hstep]
          exact absurd (hall _ hmem) (by simp)
      | pending =>
          have hstep := step_pending hfut hc
          rw [hfill] at hstep
          have hrun : s.run (n + 1) =
              (Poll.pending :: (({ s with fut := some t.advance }).run n).1,
               (({ s with fut := some t.advance }).run n).2) := by
            simp [UdpPollHelper.run, hstep]
          have htail : ∀ r ∈ (({ s with fut := some t.advance }).run n).1, r = Poll.pending := by
            intro r hr
            exact hall r (by rw [hrun]; exact List.mem_cons_of_mem _ hr)
          have := ih { s with fut := some t.advance } (by simp) htail
          rw [hrun]
          exact this

/-- A `poll_writable` call that starts from an empty slot invokes the factory
exactly once and reports exactly the fresh operation's first observation. -/
theorem step_of_empty {s : UdpPollHelper} (h : s.fut = none) :
    (s.step).1 = (s.f s.invocations).current ∧
    (s.step).2.invocations = s.invocations + 1 := by
  have hfill := fill_of_none h
  have hfut : s.fill.fut = some (s.f s.invocations) := by rw [hfill]
  cases hc : (s.f s.invocations).current with
  | ready r =>
      have hstep := step_ready hfut hc
      rw [hstep]
      simp [hfill, hc]
  | pending =>
      have hstep := step_pending hfut hc
      rw [hstep]
      simp [hfill, hc]

/-- A `poll_writable` call that reports ready leaves the slot empty. -/
theorem step_ready_clears {s s' : UdpPollHelper} {r : IoResultUnit}
    (h : s.step = (Poll.ready r, s')) : s'.fut = none := by
  obtain ⟨t, ht⟩ := Option.isSome_iff_exists.mp (fill_fut_isSome s)
  cases hc : t.current with
  | ready r' =>
      have hstep := step_ready ht hc
      rw [h] at hstep
      have : s' = { s.fill with fut := none } := by
        exact congrArg Prod.snd hstep
      rw [this]
  | pending =>
      have hstep := step_pending ht hc
      rw [h] at hstep
      exact absurd (congrArg Prod.fst hstep) (by simp)

/-! ## Claims -/

/-- Claim C1: during a single wait cycle of `UdpPollHelper` — starting at the
first `poll_writable` call on an empty retained slot — the factory is invoked
exactly once: over any positive number of calls all of which report "not
ready", the invocation count rises by exactly one, so no call after the
first creates a second concurrent underlying operation. -/
theorem claim_C1_factory_once_per_cycle (s : UdpPollHelper) (n : Nat)
    (hempty : s.fut = none) (hpos : 0 < n)
    (hall : ∀ r ∈ (s.run n).1, r = Poll.pending) :
    (s.run n).2.invocations = s.invocations + 1 := by
  obtain ⟨m, rfl⟩ : ∃ m, n = m + 1 := ⟨n - 1, (Nat.succ_pred_eq_of_pos hpos).symm⟩
  have hfill := fill_of_none hempty
  have hfut : s.fill.fut = some (s.f s.invocations) := by rw [hfill]
  cases hc : (s.f s.invocations).current with
  | ready r =>
      have hstep := step_ready hfut hc
      have hmem : Poll.ready r ∈ (s.run (m + 1)).1 := by
        simp [UdpPollHelper.run, hstep]
      exact absurd (hall _ hmem) (by simp)
  | pending =>
      have hstep := step_pending hfut hc
      have h2 : (s.step).2.invocations = s.invocations + 1 := by
        rw [hstep]
        simp [hfill]
      have h3 : ((s.step).2).fut.isSome := by
        rw [hstep]
        simp
      have hrun1 : (s.run (m + 1)).1 = (s.step).1 :: ((s.step).2.run m).1 := rfl
      have hrun2 : (s.run (m + 1)).2 = ((s.step).2.run m).2 := rfl
      have htail : ∀ r ∈ ((s.step).2.run m).1, r = Poll.pending := by
        intro r hr
        exact hall r (by rw [hrun1]; exact List.mem_cons_of_mem _ hr)
      have hrest := run_all_pending_of_isSome m (s.step).2 h3 htail
      rw [hrun2, hrest.1, h2]

/-- Claim C1 witness: three successive "not ready" calls on a helper built
over a never-ready factory invoke the factory exactly once. -/
theorem claim_C1_witness :
    (pendingHelper.run 3).2.invocations = pendingHelper.invocations + 1 :=
  claim_C1_factory_once_per_cycle pendingHelper 3 rfl (by decide)
    (by
      intro r hr
      have hl : (pendingHelper.run 3).1 = [Poll.pending, Poll.pending, Poll.pending] := rfl
      rw [hl] at hr
      simp only [List.mem_cons, List.not_mem_nil, or_false] at hr
      rcases hr with hr | hr | hr <;> exact hr)

/-- Claim C3: on every `poll_writable` call, once the slot is (re)filled with
operation `t`: if `t` resolves ready — successfully or with an error — the
call returns exactly that result and clears the slot; if `t` is not complete,
the call returns "not ready" and the slot retains that same operation (merely
driven one step), with the state otherwise unchanged, so the factory is not
invoked again. -/
theorem claim_C3_resolve_or_retain (s : UdpPollHelper) (t : Fut)
    (h : s.fill.fut = some t) :
    (∀ r : IoResultUnit, t.current = Poll.ready r →
        s.poll_writable = some (Poll.ready r, { s.fill with fut := none })) ∧
    (t.current = Poll.pending →
        s.poll_writable = some (Poll.pending, { s.fill with fut := some t.advance })) := by
  constructor
  · intro r hr
    exact poll_writable_ready h hr
  · intro hp
    exact poll_writable_pending h hp

/-- Claim C3 witness: a not-yet-complete operation is retained in the slot
and the call reports "not ready". -/
theorem claim_C3_witness :
    pendingHelper.poll_writable =
      some (Poll.pending, { pendingHelper.fill with fut := some pendingFut.advance }) :=
  (claim_C3_resolve_or_retain pendingHelper pendingFut rfl).2 rfl

/-- Claim C4: no readiness result is carried across wait cycles: a call that
reports ready leaves the slot empty; the next call on that state invokes the
factory and reports exactly the freshly created operation's own observation;
and a freshly constructed helper likewise starts with an empty slot, so its
first `poll_writable` re-evaluates readiness through its factory. -/
theorem claim_C4_no_stale_readiness (s : UdpPollHelper) (r : IoResultUnit)
    (s' : UdpPollHelper) (h : s.step = (Poll.ready r, s')) :
    s'.fut = none ∧
    (s'.step).1 = (s'.f s'.invocations).current ∧
    (s'.step).2.invocations = s'.invocations + 1 ∧
    ∀ g : Nat → Fut, (UdpPollHelper.new g).fut = none ∧
      ((UdpPollHelper.new g).step).1 = (g 0).current := by
  have hclear : s'.fut = none := step_ready_clears h
  have hnext := step_of_empty hclear
  refine ⟨hclear, hnext.1, hnext.2, ?_⟩
  intro g
  exact ⟨rfl, (step_of_empty (s := UdpPollHelper.new g) rfl).1⟩

/-- Claim C4 witness: after a cycle that resolved ready on an
immediately-ready factory, the retained slot is empty. -/
theorem claim_C4_witness : readyHelperAfter.fut = none :=
  (claim_C4_no_stale_readiness readyHelper (.ok ()) readyHelperAfter rfl).1

/-- Claim C10: the `unwrap` in `poll_writable` is always safe: for every
helper state, reading the retained slot after the filling step succeeds, so
`poll_writable` never hits its "slot unexpectedly empty" branch. -/
theorem claim_C10_unwrap_safe (s : UdpPollHelper) :
    (s.poll_writable).isSome = true := by
  obtain ⟨t, ht⟩ := Option.isSome_iff_exists.mp (fill_fut_isSome s)
  cases hc : t.current with
  | ready r => simp [poll_writable_ready ht hc]
  | pending => simp [poll_writable_pending ht hc]

/-- Claim C2: `default_runtime` probes the compiled-in backends in the fixed
priority order (tokio first, then async-std), returning the first whose
ambient-context check passes — the tokio check being the ambient handle
probe, the async-std check being vacuously true — and returns `none` when no
backend qualifies. -/
theorem claim_C2_selection_order :
    ∀ tokioFeature asyncStdFeature tokioCtxOk : Bool,
      default_runtime tokioFeature asyncStdFeature tokioCtxOk =
        selectBackend (priorityList tokioFeature asyncStdFeature tokioCtxOk) ∧
      (tokioFeature = true → tokioCtxOk = true →
        default_runtime tokioFeature asyncStdFeature tokioCtxOk =
          some RuntimeChoice.tokioRuntime) ∧
      (¬(tokioFeature = true ∧ tokioCtxOk = true) → asyncStdFeature = true →
        default_runtime tokioFeature asyncStdFeature tokioCtxOk =
          some RuntimeChoice.asyncStdRuntime) ∧
      (¬(tokioFeature = true ∧ tokioCtxOk = true) → asyncStdFeature = false →
        default_runtime tokioFeature asyncStdFeature tokioCtxOk = none) := by
  decide

/-- Claim C2 witness: with both features compiled in but no ambient tokio
context, the async-std backend is selected. -/
theorem claim_C2_witness :
    default_runtime true true false = some RuntimeChoice.asyncStdRuntime :=
  (claim_C2_selection_order true true false).2.2.1 (by simp) rfl

/-- Claim C6: with neither backend feature compiled in, `default_runtime`
returns `none` whatever the ambient context looks like. -/
theorem claim_C6_no_backend_reports_absence :
    ∀ tokioCtxOk : Bool, default_runtime false false tokioCtxOk = none := by
  decide

/-- Claim C5: a socket implementation that overrides none of the
capability-negotiation methods gets the trait defaults: one transmit
segment, one receive segment, and fragmentation permitted. -/
theorem claim_C5_capability_defaults (s : AsyncUdpSocketImpl)
    (h1 : s.max_transmit_segments_impl = none)
    (h2 : s.max_receive_segments_impl = none)
    (h3 : s.may_fragment_impl = none) :
    s.max_transmit_segments = 1 ∧ s.max_receive_segments = 1 ∧ s.may_fragment = true := by
  simp [AsyncUdpSocketImpl.max_transmit_segments, AsyncUdpSocketImpl.max_receive_segments,
    AsyncUdpSocketImpl.may_fragment, h1, h2, h3]

/-- Claim C5 witness: the all-default socket implementation. -/
theorem claim_C5_witness :
    (AsyncUdpSocketImpl.mk none none none).max_transmit_segments = 1 ∧
    (AsyncUdpSocketImpl.mk none none none).max_receive_segments = 1 ∧
    (AsyncUdpSocketImpl.mk none none none).may_fragment = true :=
  claim_C5_capability_defaults (AsyncUdpSocketImpl.mk none none none) rfl rfl rfl

/-- Claim C7: among the three `Runtime` factory operations,
`wrap_udp_socket` is the only one whose result type carries an I/O error;
`new_timer` yields a timer with no error alternative and `spawn` yields
nothing. -/
theorem claim_C7_only_wrap_udp_socket_fallible :
    (∀ op : RuntimeOp,
        (runtimeOpResultShape op).fallible = true ↔ op = RuntimeOp.wrap_udp_socket) ∧
    runtimeOpResultShape RuntimeOp.new_timer = ResultShape.timerValue ∧
    runtimeOpResultShape RuntimeOp.spawn = ResultShape.unitValue := by
  refine ⟨?_, rfl, rfl⟩
  intro op
  cases op <;> simp [runtimeOpResultShape, ResultShape.fallible]

/-- Claim C7 witness: `wrap_udp_socket`'s result shape is fallible. -/
theorem claim_C7_witness :
    (runtimeOpResultShape RuntimeOp.wrap_udp_socket).fallible = true :=
  (claim_C7_only_wrap_udp_socket_fallible.1 RuntimeOp.wrap_udp_socket).mpr rfl

/-- Claim C8: every successful `try_send` of the spec-modelled one-at-a-time
backend returns a count that never exceeds the number of datagrams passed in
and is never negative. -/
theorem claim_C8_try_send_count_bound {α : Type} (accepts : Nat)
    (transmits : List α) (n : Nat) (h : try_send accepts transmits = .ok n) :
    n ≤ transmits.length ∧ 0 ≤ n := by
  refine ⟨?_, Nat.zero_le n⟩
  unfold try_send at h
  by_cases he : transmits.isEmpty
  · simp [he] at h
    omega
  · by_cases ha : accepts = 0
    · simp [he, ha] at h
    · simp [he, ha] at h
      omega

/-- Claim C8 witness: sending three datagrams when the socket accepts two
reports a count of two, within bounds. -/
theorem claim_C8_witness : 2 ≤ ([0, 1, 2] : List Nat).length ∧ 0 ≤ 2 :=
  claim_C8_try_send_count_bound 2 [0, 1, 2] 2 rfl

/-- Claim C9: `reset` sends every timer state to `Idle` at the new deadline,
implicitly invalidating any pending registration, and the very next poll is
evaluated against the new deadline only: it fires exactly when the new
deadline is at or before the current instant, whatever the old state was. -/
theorem claim_C9_reset_reevaluates (st : TimerState) (newDeadline now : Nat) :
    AsyncTimer.reset st newDeadline = TimerState.idle newDeadline ∧
    (newDeadline ≤ now →
        (AsyncTimer.poll (AsyncTimer.reset st newDeadline) now).1 = Poll.ready ()) ∧
    (now < newDeadline →
        (AsyncTimer.poll (AsyncTimer.reset st newDeadline) now).1 = Poll.pending) := by
  refine ⟨rfl, ?_, ?_⟩
  · intro h
    simp [AsyncTimer.reset, AsyncTimer.poll, h]
  · intro h
    simp [AsyncTimer.reset, AsyncTimer.poll, Nat.not_le.mpr h]

/-- Claim C9 witness: a registered timer with deadline 10 reset to deadline 0
fires on the very next poll at instant 5. -/
theorem claim_C9_witness :
    (AsyncTimer.poll (AsyncTimer.reset (TimerState.registered 10) 0) 5).1 = Poll.ready () :=
  (claim_C9_reset_reevaluates (TimerState.registered 10) 0 5).2.1 (by decide)

end Quinn
